import Mathlib

/-!
Verification development for the procedural-terrain core of the `kyro`
repository (`src/marching_cubes.rs`, `src/terrain.rs`).

Shallow-embedding conventions:
* Rust `f32`/`f64` values are modelled as exact rationals (`ℚ`); the
  arithmetic used by the code is `+ - * /` and comparisons, all of which
  are exact here.  Where an `f32` division can produce a non-finite value
  (NaN/∞) a separate `Option`-valued model makes that case observable.
* `usize`/`u8`/`u128` are modelled as `ℕ`, `i16` as `ℤ`.
* `Matrix3D` (`src/matrix_3d.rs` is not present in the sources; only its
  users are) is modelled from the spec: a Dense Scalar Volume, a fixed-size
  3D array of scalar densities addressed by integer coordinates.
* The triangulation table is loaded from `assets/triangulation.ron`, an
  external data file that is also not present; generic theorems take the
  table as a parameter and concrete evaluations use `specTable`, modelled
  from the spec (see its doc comment).
* The `noise` crate's `OpenSimplex` generator and the `rand` crate's
  seeded `StdRng` are external dependencies; they are modelled as function
  parameters (`mkNoise`, `rngDraw`), keeping everything deterministic and
  executable.  The `splines` crate's `Spline`/`clamped_sample` are embedded
  directly since the bound curves' behaviour is load-bearing for the spec.
-/

namespace Kyro

/-- Modelled from the spec: the Dense Scalar Volume of `src/matrix_3d.rs`
(the file itself is missing from `src/`): dimensions fixed at construction,
backing storage a flat mapping from a 3D integer index to a density. -/
structure Matrix3D where
  xdim : ℕ
  ydim : ℕ
  zdim : ℕ
  data : ℕ × ℕ × ℕ → ℚ

/-- Modelled from the spec: a fresh volume (densities default to 0). -/
def Matrix3D.new (x y z : ℕ) : Matrix3D :=
  { xdim := x, ydim := y, zdim := z, data := fun _ => 0 }

/-- Modelled from the spec: read one sample. -/
def Matrix3D.get (m : Matrix3D) (v : ℕ × ℕ × ℕ) : ℚ := m.data v

/-- Modelled from the spec: write one sample. -/
def Matrix3D.set (m : Matrix3D) (v : ℕ × ℕ × ℕ) (val : ℚ) : Matrix3D :=
  { m with data := fun w => if w = v then val else m.data w }

/-- The three parts of the triangulation data file (`Triangulation` struct,
marching_cubes.rs lines 29-34). -/
structure Triangulation where
  triangulation_table : List (List ℕ)
  cube_points : List (ℕ × ℕ × ℕ)
  cube_edges : List (ℕ × ℕ)

/-- `const CUTOFF: f32 = 0.0;` (marching_cubes.rs line 36). -/
def CUTOFF : ℚ := 0

/-- Corner offset lookup `CUBE_POINTS[i]` (out-of-range access would panic
in Rust; modelled with a default, unreachable for the real 8-entry table). -/
def cornerPt (T : Triangulation) (i : ℕ) : ℕ × ℕ × ℕ :=
  T.cube_points.getD i (0, 0, 0)

/-- The corner density `vals[i]` sampled at `vector + CUBE_POINTS[i]`
(marching_cubes.rs lines 42-49). -/
def cornerVal (T : Triangulation) (m : Matrix3D) (v : ℕ × ℕ × ℕ) (i : ℕ) : ℚ :=
  m.get (v.1 + (cornerPt T i).1, v.2.1 + (cornerPt T i).2.1, v.2.2 + (cornerPt T i).2.2)

/-- The cube configuration id: `id += 2usize.pow(i)` for every corner `i`
with `vals[i] < CUTOFF` (marching_cubes.rs lines 40-53). -/
def cubeId (T : Triangulation) (m : Matrix3D) (v : ℕ × ℕ × ℕ) : ℕ :=
  (List.range 8).foldl (fun acc i => if cornerVal T m v i < CUTOFF then acc + 2 ^ i else acc) 0

/-- The interpolation weights of marching_cubes.rs lines 66-74, as `(start_weight,
end_weight)`.  Division is exact rational division; the divisor is nonzero
whenever the two densities differ (see `edgeWeightsChecked` for the f32
degenerate case). -/
def edgeWeights (s e : ℚ) : ℚ × ℚ :=
  if e < s then
    ((CUTOFF - e) / (s - e), 1 - (CUTOFF - e) / (s - e))
  else
    (1 - (CUTOFF - s) / (e - s), (CUTOFF - s) / (e - s))

/-- f32-faithful variant of `edgeWeights`: when the two corner densities
coincide the Rust code takes the `else` branch and divides by
`end_density - start_density = 0.0`, which in `f32` yields NaN (when the
numerator `CUTOFF - start_density` is also `0.0`) or `±∞`; both weights are
then non-finite.  `none` models that non-finite outcome. -/
def edgeWeightsChecked (s e : ℚ) : Option (ℚ × ℚ) :=
  if e < s then
    some ((CUTOFF - e) / (s - e), 1 - (CUTOFF - e) / (s - e))
  else if s = e then
    none
  else
    some (1 - (CUTOFF - s) / (e - s), (CUTOFF - s) / (e - s))

/-- One interpolated crossing point for edge index `eIdx` of the table
(marching_cubes.rs lines 61-78). -/
def edgePoint (T : Triangulation) (m : Matrix3D) (v : ℕ × ℕ × ℕ) (eIdx : ℕ) : ℚ × ℚ × ℚ :=
  let edge := T.cube_edges.getD eIdx (0, 0)
  let start := cornerPt T edge.1
  let stop := cornerPt T edge.2
  let w := edgeWeights (cornerVal T m v edge.1) (cornerVal T m v edge.2)
  ((start.1 : ℚ) * w.1 + (stop.1 : ℚ) * w.2,
   (start.2.1 : ℚ) * w.1 + (stop.2.1 : ℚ) * w.2,
   (start.2.2 : ℚ) * w.1 + (stop.2.2 : ℚ) * w.2)

/-- The triangulation-table row `TRI_TABLE[id]` (marching_cubes.rs line 54). -/
def rowOf (T : Triangulation) (id : ℕ) : List ℕ :=
  T.triangulation_table.getD id []

/-- `get_cube_tris` (marching_cubes.rs lines 38-82): for each triple of edge
indices in the configuration's table row, emit the three interpolated
crossing points. -/
def get_cube_tris (T : Triangulation) (m : Matrix3D) (v : ℕ × ℕ × ℕ) : List (ℚ × ℚ × ℚ) :=
  (List.range ((rowOf T (cubeId T m v)).length / 3)).flatMap fun i =>
    (List.range 3).map fun j => edgePoint T m v ((rowOf T (cubeId T m v)).getD (i * 3 + j) 0)

/-- `correct` (marching_cubes.rs lines 84-98): scale each cube-local vertex
and displace it by the (scaled) cube origin. -/
def correct (pts : List (ℚ × ℚ × ℚ)) (scale : ℚ) (displace : ℕ × ℕ × ℕ) : List (ℚ × ℚ × ℚ) :=
  pts.map fun pt =>
    (pt.1 * scale + (displace.1 : ℚ) * scale,
     pt.2.1 * scale + (displace.2.1 : ℚ) * scale,
     pt.2.2 * scale + (displace.2.2 : ℚ) * scale)

/-- The cube origins visited by `get_mesh_data`'s triple loop
(marching_cubes.rs lines 104-106): `z` outermost, `x` innermost, each axis
ranging over `0..dim-1`. -/
def cubeOrigins (m : Matrix3D) : List (ℕ × ℕ × ℕ) :=
  (List.range (m.zdim - 1)).flatMap fun z =>
    (List.range (m.ydim - 1)).flatMap fun y =>
      (List.range (m.xdim - 1)).map fun x => (x, y, z)

/-- Cross product `(p1 - p0) × (p2 - p1)` used for the flat face normal
(marching_cubes.rs line 116). -/
def faceNormal (p0 p1 p2 : ℚ × ℚ × ℚ) : ℚ × ℚ × ℚ :=
  let a := (p1.1 - p0.1, p1.2.1 - p0.2.1, p1.2.2 - p0.2.2)
  let b := (p2.1 - p1.1, p2.2.1 - p1.2.1, p2.2.2 - p1.2.2)
  (a.2.1 * b.2.2 - a.2.2 * b.2.1,
   a.2.2 * b.1 - a.1 * b.2.2,
   a.1 * b.2.1 - a.2.1 * b.1)

/-- Output mesh buffers (`MeshData` struct, marching_cubes.rs lines 146-150). -/
structure MeshData where
  posns : List (ℚ × ℚ × ℚ)
  norms : List (ℚ × ℚ × ℚ)
  coords : List (ℚ × ℚ)

/-- The corrected vertices contributed by one cube (marching_cubes.rs line 108). -/
def cubePts (T : Triangulation) (m : Matrix3D) (scale : ℚ) (v : ℕ × ℕ × ℕ) : List (ℚ × ℚ × ℚ) :=
  correct (get_cube_tris T m v) scale v

/-- The flat normals contributed by one cube: one normal per triangle,
pushed three times (marching_cubes.rs lines 115-122). -/
def cubeNorms (T : Triangulation) (m : Matrix3D) (scale : ℚ) (v : ℕ × ℕ × ℕ) : List (ℚ × ℚ × ℚ) :=
  let pts := cubePts T m scale v
  (List.range (pts.length / 3)).flatMap fun i =>
    List.replicate 3
      (faceNormal (pts.getD (i * 3) (0, 0, 0)) (pts.getD (i * 3 + 1) (0, 0, 0))
        (pts.getD (i * 3 + 2) (0, 0, 0)))

/-- The placeholder texture coordinates contributed by one cube
(marching_cubes.rs line 121). -/
def cubeCoords (T : Triangulation) (m : Matrix3D) (scale : ℚ) (v : ℕ × ℕ × ℕ) : List (ℚ × ℚ) :=
  let pts := cubePts T m scale v
  (List.range (pts.length / 3)).flatMap fun _ => List.replicate 3 ((0 : ℚ), (0 : ℚ))

/-- `get_mesh_data` (marching_cubes.rs lines 100-132): accumulate the per-cube
positions, normals and texture coordinates over all cube origins, in loop
order. -/
def get_mesh_data (T : Triangulation) (m : Matrix3D) (scale : ℚ) : MeshData :=
  { posns := (cubeOrigins m).flatMap fun v => cubePts T m scale v
    norms := (cubeOrigins m).flatMap fun v => cubeNorms T m scale v
    coords := (cubeOrigins m).flatMap fun v => cubeCoords T m scale v }

/-- `MeshData::get_mesh_data` (marching_cubes.rs lines 152-161): the index
sequence is `(0..(posns.len() as u16)).collect()`; the `as u16` cast
truncates the length modulo 2^16. -/
def MeshData.get_mesh_data (md : MeshData) :
    List ℕ × List (ℚ × ℚ × ℚ) × List (ℚ × ℚ × ℚ) × List (ℚ × ℚ) :=
  (List.range (md.posns.length % 2 ^ 16), md.posns, md.norms, md.coords)

/-- Modelled from the spec: one row of the triangulation table of the
external data file `assets/triangulation.ron` (not in `src/`).  The spec
pins rows 0 and 255 (all corners on one side: empty row) and the
single-corner-below configurations (one triangle whose vertices lie on the
three cube edges touching that corner); with the canonical corner/edge
numbering below these are rows 1 (corner 0: edges 0, 8, 3) and 2 (corner 1:
edges 0, 1, 9).  Rows the spec does not pin are left empty. -/
def specRow (i : ℕ) : List ℕ :=
  if i = 1 then [0, 8, 3] else if i = 2 then [0, 1, 9] else []

/-- Modelled from the spec: the Triangulation Table resource with the
canonical unit-cube geometry — 8 corner offsets (components 0 or 1) and 12
edges as corner-index pairs — and the 256 rows of `specRow`. -/
def specTable : Triangulation :=
  { triangulation_table := (List.range 256).map specRow
    cube_points :=
      [(0, 0, 0), (1, 0, 0), (1, 1, 0), (0, 1, 0), (0, 0, 1), (1, 0, 1), (1, 1, 1), (0, 1, 1)]
    cube_edges :=
      [(0, 1), (1, 2), (2, 3), (3, 0), (4, 5), (5, 6), (6, 7), (7, 4), (0, 4), (1, 5), (2, 6), (3, 7)] }

/-- C1.  The spec claims the degenerate case of both corner densities equal
to the cutoff is guarded by a 0.5/0.5 weight split.  The code has no such
guard: the `else` branch divides by `end_density - start_density = 0.0`,
an f32 NaN (`edgeWeightsChecked` returns `none`), and the exact-arithmetic
weights the formula denotes are `(1, 0)`, not `(1/2, 1/2)`. -/
theorem degenerate_edge_weights_not_half :
    edgeWeightsChecked CUTOFF CUTOFF = none ∧ edgeWeights CUTOFF CUTOFF ≠ (1 / 2, 1 / 2) := by
  constructor
  · rfl
  · intro h
    have h1 := congrArg Prod.fst h
    norm_num [edgeWeights, CUTOFF] at h1

/-- A convex combination with nonnegative weights summing to 1 stays inside
the segment. -/
lemma convex_pair (w1 w2 : ℚ) (h1 : 0 ≤ w1) (h2 : 0 ≤ w2) (hs : w1 + w2 = 1) :
    ∀ a b : ℚ, a ≤ b → a ≤ w1 * a + w2 * b ∧ w1 * a + w2 * b ≤ b := by
  intro a b hab
  have k1 : w1 * a ≤ w1 * b := mul_le_mul_of_nonneg_left hab h1
  have k2 : w2 * a ≤ w2 * b := mul_le_mul_of_nonneg_left hab h2
  have ea : w1 * a + w2 * a = a := by
    calc w1 * a + w2 * a = (w1 + w2) * a := by ring
      _ = 1 * a := by rw [hs]
      _ = a := one_mul a
  have eb : w1 * b + w2 * b = b := by
    calc w1 * b + w2 * b = (w1 + w2) * b := by ring
      _ = 1 * b := by rw [hs]
      _ = b := one_mul b
  constructor <;> linarith

/-- C2 (amended).  For an edge whose two corner densities lie on opposite
sides of the cutoff — as holds for every edge listed in a marching-cubes
triangulation row, since bit `i` of the configuration id is set exactly
when corner `i` is below the cutoff — the two interpolation weights lie in
`[0, 1]` and sum to `1`, so the crossing point lies within the closed
segment between the corner positions (it can coincide with a corner, when
that corner's density is exactly the cutoff). -/
theorem edge_weights_unit_interval (s e : ℚ)
    (h : (s < CUTOFF ∧ CUTOFF ≤ e) ∨ (e < CUTOFF ∧ CUTOFF ≤ s)) :
    0 ≤ (edgeWeights s e).1 ∧ (edgeWeights s e).1 ≤ 1 ∧
    0 ≤ (edgeWeights s e).2 ∧ (edgeWeights s e).2 ≤ 1 ∧
    (edgeWeights s e).1 + (edgeWeights s e).2 = 1 ∧
    ∀ a b : ℚ, a ≤ b →
      a ≤ (edgeWeights s e).1 * a + (edgeWeights s e).2 * b ∧
      (edgeWeights s e).1 * a + (edgeWeights s e).2 * b ≤ b := by
  simp only [CUTOFF] at h
  rcases h with ⟨hs, he⟩ | ⟨he, hs⟩
  · have hne : ¬ e < s := not_lt.mpr (le_of_lt (lt_of_lt_of_le hs he))
    have hd : 0 < e - s := by linarith
    have hw0 : 0 ≤ (CUTOFF - s) / (e - s) := by
      apply div_nonneg _ (le_of_lt hd)
      simp [CUTOFF]; linarith
    have hw1 : (CUTOFF - s) / (e - s) ≤ 1 := by
      rw [div_le_one hd]
      simp [CUTOFF]; linarith
    simp only [edgeWeights, if_neg hne]
    refine ⟨by linarith, by linarith, hw0, hw1, by ring, ?_⟩
    exact convex_pair _ _ (by linarith) hw0 (by ring)
  · have hlt : e < s := lt_of_lt_of_le he hs
    have hd : 0 < s - e := by linarith
    have hw0 : 0 ≤ (CUTOFF - e) / (s - e) := by
      apply div_nonneg _ (le_of_lt hd)
      simp [CUTOFF]; linarith
    have hw1 : (CUTOFF - e) / (s - e) ≤ 1 := by
      rw [div_le_one hd]
      simp [CUTOFF]; linarith
    simp only [edgeWeights, if_pos hlt]
    refine ⟨hw0, hw1, by linarith, by linarith, by ring, ?_⟩
    exact convex_pair _ _ hw0 (by linarith) (by ring)

/-- C2 witness: densities `start = -1`, `end = 0`. -/
theorem edge_weights_unit_interval_witness :
    0 ≤ (edgeWeights (-1) 0).1 ∧ (edgeWeights (-1) 0).1 ≤ 1 ∧
    0 ≤ (edgeWeights (-1) 0).2 ∧ (edgeWeights (-1) 0).2 ≤ 1 ∧
    (edgeWeights (-1) 0).1 + (edgeWeights (-1) 0).2 = 1 ∧
    ∀ a b : ℚ, a ≤ b →
      a ≤ (edgeWeights (-1) 0).1 * a + (edgeWeights (-1) 0).2 * b ∧
      (edgeWeights (-1) 0).1 * a + (edgeWeights (-1) 0).2 * b ≤ b :=
  edge_weights_unit_interval (-1) 0 (Or.inl (by norm_num [CUTOFF]))

/-- A 2×2×2 volume whose corner 0 has density `-1` and whose other corners
have density exactly the cutoff `0`. -/
def mC2 : Matrix3D :=
  { xdim := 2, ydim := 2, zdim := 2, data := fun p => if p = (0, 0, 0) then -1 else 0 }

/-- Helper: `List.range 8` as a literal, for unfolding the configuration-id
fold. -/
lemma range_eight : List.range 8 = [0, 1, 2, 3, 4, 5, 6, 7] := rfl

/-- On `mC2` only corner 0 is below the cutoff, so the configuration id is 1. -/
lemma mC2_id : cubeId specTable mC2 (0, 0, 0) = 1 := by
  rw [cubeId, range_eight]
  norm_num [cornerVal, cornerPt, Matrix3D.get, mC2, specTable, CUTOFF]

/-- On `mC2` the configuration row is `[0, 8, 3]` — three crossing points. -/
lemma mC2_tris : get_cube_tris specTable mC2 (0, 0, 0) =
    [edgePoint specTable mC2 (0, 0, 0) 0, edgePoint specTable mC2 (0, 0, 0) 8,
     edgePoint specTable mC2 (0, 0, 0) 3] := by
  rw [get_cube_tris, mC2_id]
  norm_num [rowOf, specTable, specRow, List.getD]
  rfl

/-- The crossing point of edge 0 on `mC2` is exactly the position of corner 1. -/
lemma mC2_p0 : edgePoint specTable mC2 (0, 0, 0) 0 = (1, 0, 0) := by
  norm_num [edgePoint, edgeWeights, cornerVal, cornerPt, Matrix3D.get, mC2, specTable, CUTOFF]

/-- C2 counterexample.  On `mC2` the cube configuration is 1 and the first
listed edge is edge 0, joining corners 0 and 1; the emitted crossing point
is `(1, 0, 0)`, exactly the position of corner 1 (whose density equals the
cutoff), so the crossing point is *not* strictly between the edge's two
corner positions. -/
theorem crossing_point_at_corner_cx :
    (get_cube_tris specTable mC2 (0, 0, 0)).get? 0 = some (1, 0, 0) ∧
    cornerPt specTable 1 = (1, 0, 0) ∧
    specTable.cube_edges.getD
      ((specTable.triangulation_table.getD (cubeId specTable mC2 (0, 0, 0)) []).getD 0 0)
      (0, 0) = (0, 1) ∧
    ¬ (∀ pt ∈ get_cube_tris specTable mC2 (0, 0, 0), pt ≠ ((1 : ℚ), 0, 0)) := by
  refine ⟨?_, by decide, ?_, ?_⟩
  · rw [mC2_tris, mC2_p0]; rfl
  · rw [mC2_id]; decide
  · intro h
    exact h _ (by rw [mC2_tris, mC2_p0]; exact List.mem_cons_self _ _) rfl

/-- Helper: the length of the nested z/y/x iteration grid. -/
lemma grid_length (a b c : ℕ) :
    ((List.range a).flatMap fun z => (List.range b).flatMap fun y =>
      (List.range c).map fun x => (x, y, z)).length = a * (b * c) := by
  rw [List.length_flatMap]
  rw [List.map_congr_left (g := fun _ => b * c) (by
    intro z hz
    simp only [Function.comp, List.length_flatMap]
    rw [List.map_congr_left (g := fun _ => c) (by intro y hy; simp [Function.comp])]
    simp [List.map_const, List.sum_replicate, mul_comm])]
  simp [List.map_const, List.sum_replicate, mul_comm]

/-- Helper: the iteration grid visits no origin twice. -/
lemma grid_nodup (a b c : ℕ) :
    ((List.range a).flatMap fun z => (List.range b).flatMap fun y =>
      (List.range c).map fun x => (x, y, z)).Nodup := by
  rw [List.nodup_flatMap]
  constructor
  · intro z hz
    rw [List.nodup_flatMap]
    constructor
    · intro y hy
      exact (List.nodup_range c).map (fun x1 x2 h12 => congrArg Prod.fst h12)
    · apply (List.pairwise_lt_range b).imp
      intro y1 y2 h12 t ht1 ht2
      simp only [List.mem_map] at ht1 ht2
      obtain ⟨x1, _, rfl⟩ := ht1
      obtain ⟨x2, _, e2⟩ := ht2
      have := congrArg (fun q => q.2.1) e2
      simp at this
      omega
  · apply (List.pairwise_lt_range a).imp
    intro z1 z2 h12 t ht1 ht2
    simp only [List.mem_flatMap, List.mem_map] at ht1 ht2
    obtain ⟨y1, _, x1, _, rfl⟩ := ht1
    obtain ⟨y2, _, x2, _, e2⟩ := ht2
    have := congrArg (fun q => q.2.2) e2
    simp at this
    omega

/-- C5 (amended).  For a volume of `(n+1)` samples per axis, the Mesh
Assembler iterates exactly `n^3` cube origins, each exactly once, and the
origins are precisely the triples with every coordinate in `[0, dim-1)`,
i.e. `0 ≤ coordinate < n` (the spec's half-open bound `dim-2` is off by
one). -/
theorem cube_origins_cover (m : Matrix3D) (n : ℕ) (hn : 1 ≤ n)
    (hx : m.xdim = n + 1) (hy : m.ydim = n + 1) (hz : m.zdim = n + 1) :
    (cubeOrigins m).length = n ^ 3 ∧ (cubeOrigins m).Nodup ∧
    ∀ o : ℕ × ℕ × ℕ, o ∈ cubeOrigins m ↔ o.1 < n ∧ o.2.1 < n ∧ o.2.2 < n := by
  have hco : cubeOrigins m = (List.range n).flatMap fun z =>
      (List.range n).flatMap fun y => (List.range n).map fun x => (x, y, z) := by
    simp [cubeOrigins, hx, hy, hz]
  refine ⟨?_, ?_, ?_⟩
  · rw [hco, grid_length]; ring
  · rw [hco]; exact grid_nodup n n n
  · intro o
    obtain ⟨x, y, z⟩ := o
    rw [hco]
    simp only [List.mem_flatMap, List.mem_map, List.mem_range]
    constructor
    · rintro ⟨z', hz', y', hy', x', hx', e⟩
      cases e
      exact ⟨hx', hy', hz'⟩
    · rintro ⟨h1, h2, h3⟩
      exact ⟨z, h3, y, h2, x, h1, rfl⟩

/-- C5 witness input: a 3×3×3 volume (`n = 2`). -/
def mThree : Matrix3D := { xdim := 3, ydim := 3, zdim := 3, data := fun _ => 0 }

/-- C5 witness: at `n = 2` the assembler visits the 8 cube origins with
coordinates below 2, each once. -/
theorem cube_origins_cover_witness :
    (cubeOrigins mThree).length = 2 ^ 3 ∧ (cubeOrigins mThree).Nodup ∧
    ∀ o : ℕ × ℕ × ℕ, o ∈ cubeOrigins mThree ↔ o.1 < 2 ∧ o.2.1 < 2 ∧ o.2.2 < 2 :=
  cube_origins_cover mThree 2 (by norm_num) rfl rfl rfl

/-- A 2×2×2 volume (`n = 1`). -/
def mSmall : Matrix3D := { xdim := 2, ydim := 2, zdim := 2, data := fun _ => 0 }

/-- C5 counterexample.  With `n = 1` (a 2×2×2 volume) the assembler visits
cube origin `(0,0,0)`, which does not lie in the spec's stated half-open
range `[0, dim-2)` (empty here): the stated range is off by one. -/
theorem cube_origins_stated_range_cx :
    ¬ (∀ o ∈ cubeOrigins mSmall,
        o.1 < mSmall.xdim - 2 ∧ o.2.1 < mSmall.ydim - 2 ∧ o.2.2 < mSmall.zdim - 2) := by
  decide

/-- Helper: each cube emits `3 * (row.length / 3)` crossing points. -/
lemma get_cube_tris_length (T : Triangulation) (m : Matrix3D) (v : ℕ × ℕ × ℕ) :
    (get_cube_tris T m v).length = 3 * ((rowOf T (cubeId T m v)).length / 3) := by
  rw [get_cube_tris, List.length_flatMap]
  rw [List.map_congr_left (g := fun _ => 3) (by intro i hi; simp [Function.comp])]
  simp [List.map_const, List.sum_replicate, mul_comm]

/-- Helper: `correct` keeps the vertex count. -/
lemma cubePts_length (T : Triangulation) (m : Matrix3D) (s : ℚ) (v : ℕ × ℕ × ℕ) :
    (cubePts T m s v).length = (get_cube_tris T m v).length := by
  simp [cubePts, correct]

/-- Helper: each cube's vertex count is a multiple of 3. -/
lemma cubePts_length_dvd (T : Triangulation) (m : Matrix3D) (s : ℚ) (v : ℕ × ℕ × ℕ) :
    3 ∣ (cubePts T m s v).length :=
  ⟨(rowOf T (cubeId T m v)).length / 3, by rw [cubePts_length, get_cube_tris_length]⟩

/-- Helper: one flat normal is pushed per vertex. -/
lemma cubeNorms_length (T : Triangulation) (m : Matrix3D) (s : ℚ) (v : ℕ × ℕ × ℕ) :
    (cubeNorms T m s v).length = (cubePts T m s v).length := by
  rw [cubeNorms, List.length_flatMap]
  rw [List.map_congr_left (g := fun _ => 3) (by intro i hi; simp [Function.comp])]
  rw [List.map_const', List.sum_replicate, List.length_range, smul_eq_mul]
  exact Nat.div_mul_cancel (cubePts_length_dvd T m s v)

/-- Helper: one texture coordinate is pushed per vertex. -/
lemma cubeCoords_length (T : Triangulation) (m : Matrix3D) (s : ℚ) (v : ℕ × ℕ × ℕ) :
    (cubeCoords T m s v).length = (cubePts T m s v).length := by
  rw [cubeCoords, List.length_flatMap]
  rw [List.map_congr_left (g := fun _ => 3) (by intro i hi; simp [Function.comp])]
  rw [List.map_const', List.sum_replicate, List.length_range, smul_eq_mul]
  exact Nat.div_mul_cancel (cubePts_length_dvd T m s v)

/-- C6 (amended).  The three mesh buffers always have the same length, that
length is a multiple of 3, and — provided the vertex count fits in a `u16`
(is below 2^16) — the emitted index sequence is `[0, 1, ..., length-1]`.
(The `as u16` cast in `MeshData::get_mesh_data` truncates larger counts,
see the counterexample.) -/
theorem mesh_data_invariants (T : Triangulation) (m : Matrix3D) (scale : ℚ) :
    (get_mesh_data T m scale).posns.length = (get_mesh_data T m scale).norms.length ∧
    (get_mesh_data T m scale).posns.length = (get_mesh_data T m scale).coords.length ∧
    3 ∣ (get_mesh_data T m scale).posns.length ∧
    ((get_mesh_data T m scale).posns.length < 2 ^ 16 →
      ((get_mesh_data T m scale).get_mesh_data).1 =
        List.range (get_mesh_data T m scale).posns.length) := by
  refine ⟨?_, ?_, ?_, ?_⟩
  · simp only [get_mesh_data, List.length_flatMap]
    rw [List.map_congr_left (f := List.length ∘ fun v => cubePts T m scale v)
      (g := List.length ∘ fun v => cubeNorms T m scale v)
      (by intro v hv; simp [Function.comp, cubeNorms_length])]
  · simp only [get_mesh_data, List.length_flatMap]
    rw [List.map_congr_left (f := List.length ∘ fun v => cubePts T m scale v)
      (g := List.length ∘ fun v => cubeCoords T m scale v)
      (by intro v hv; simp [Function.comp, cubeCoords_length])]
  · simp only [get_mesh_data, List.length_flatMap]
    apply List.dvd_sum
    intro x hx
    simp only [List.mem_map] at hx
    obtain ⟨v, hv, rfl⟩ := hx
    exact cubePts_length_dvd T m scale v
  · intro h
    simp only [MeshData.get_mesh_data]
    rw [Nat.mod_eq_of_lt h]

/-- A 2×2×2 volume with all densities 1. -/
def oneM : Matrix3D := { xdim := 2, ydim := 2, zdim := 2, data := fun _ => 1 }

/-- C6 witness: the invariants instantiated on a concrete volume. -/
theorem mesh_data_invariants_witness :
    (get_mesh_data specTable oneM 1).posns.length = (get_mesh_data specTable oneM 1).norms.length ∧
    (get_mesh_data specTable oneM 1).posns.length = (get_mesh_data specTable oneM 1).coords.length ∧
    3 ∣ (get_mesh_data specTable oneM 1).posns.length ∧
    ((get_mesh_data specTable oneM 1).posns.length < 2 ^ 16 →
      ((get_mesh_data specTable oneM 1).get_mesh_data).1 =
        List.range (get_mesh_data specTable oneM 1).posns.length) :=
  mesh_data_invariants specTable oneM 1

/-- Helper: a cube whose 8 sampled densities are all at or above the cutoff
has configuration id 0. -/
lemma cubeId_all_nonneg (T : Triangulation) (m : Matrix3D) (v : ℕ × ℕ × ℕ)
    (h : ∀ p : ℕ × ℕ × ℕ, 0 ≤ m.get p) : cubeId T m v = 0 := by
  have hv : ∀ i, ¬ cornerVal T m v i < CUTOFF := by
    intro i
    simp only [cornerVal, CUTOFF]
    exact not_lt.mpr (h _)
  rw [cubeId, range_eight]
  simp [hv]

/-- Helper: a cube whose 8 sampled densities are all strictly below the
cutoff has configuration id 255. -/
lemma cubeId_all_neg (T : Triangulation) (m : Matrix3D) (v : ℕ × ℕ × ℕ)
    (h : ∀ p : ℕ × ℕ × ℕ, m.get p < 0) : cubeId T m v = 255 := by
  have hv : ∀ i, cornerVal T m v i < CUTOFF := by
    intro i
    simp only [cornerVal, CUTOFF]
    exact h _
  rw [cubeId, range_eight]
  simp [hv]

/-- Helper: an empty configuration row yields no crossing points. -/
lemma get_cube_tris_of_empty_row (T : Triangulation) (m : Matrix3D) (v : ℕ × ℕ × ℕ)
    (h : rowOf T (cubeId T m v) = []) : get_cube_tris T m v = [] := by
  rw [get_cube_tris, h]
  rfl

/-- C8.  If every sampled density is at or above the cutoff, or every
sampled density is strictly below it, then every cube's configuration id is
0 resp. 255; provided those two table rows are empty (as the spec requires
of the triangulation table), the assembler emits no geometry at all. -/
theorem no_crossing_no_triangles (T : Triangulation) (m : Matrix3D) (scale : ℚ)
    (h0 : rowOf T 0 = []) (h255 : rowOf T 255 = [])
    (hm : (∀ p : ℕ × ℕ × ℕ, 0 ≤ m.get p) ∨ (∀ p : ℕ × ℕ × ℕ, m.get p < 0)) :
    (get_mesh_data T m scale).posns = [] ∧ (get_mesh_data T m scale).norms = [] ∧
    (get_mesh_data T m scale).coords = [] := by
  have ht : ∀ v, get_cube_tris T m v = [] := by
    intro v
    rcases hm with h | h
    · exact get_cube_tris_of_empty_row T m v (by rw [cubeId_all_nonneg T m v h, h0])
    · exact get_cube_tris_of_empty_row T m v (by rw [cubeId_all_neg T m v h, h255])
  have hp : ∀ v, cubePts T m scale v = [] := by
    intro v
    rw [cubePts, ht v]
    rfl
  refine ⟨?_, ?_, ?_⟩
  · simp only [get_mesh_data]
    exact List.flatMap_eq_nil_iff.mpr fun v _ => hp v
  · simp only [get_mesh_data]
    refine List.flatMap_eq_nil_iff.mpr fun v _ => ?_
    rw [cubeNorms, hp v]
    rfl
  · simp only [get_mesh_data]
    refine List.flatMap_eq_nil_iff.mpr fun v _ => ?_
    rw [cubeCoords, hp v]
    rfl

/-- C8 witness: a uniformly solid-free volume (all densities 1 ≥ cutoff)
yields an empty mesh under the spec-modelled table (rows 0 and 255 empty). -/
theorem no_crossing_no_triangles_witness :
    (get_mesh_data specTable oneM 1).posns = [] ∧ (get_mesh_data specTable oneM 1).norms = [] ∧
    (get_mesh_data specTable oneM 1).coords = [] :=
  no_crossing_no_triangles specTable oneM 1 rfl rfl
    (Or.inl fun p => by norm_num [oneM, Matrix3D.get])

/-- A (21848)×2×2 volume: densities are `-1` exactly at samples with
`y = z = 0` and even `x`, else `1`.  Every one of its 21847 cubes has
exactly one corner below the cutoff (corner 0 for even cube index, corner 1
for odd), hence emits exactly one triangle: 65541 vertices in total. -/
def bigM : Matrix3D :=
  { xdim := 21848, ydim := 2, zdim := 2,
    data := fun p => if p.2.1 = 0 ∧ p.2.2 = 0 ∧ p.1 % 2 = 0 then -1 else 1 }

/-- Helper: each `bigM` cube's configuration is 1 (even index) or 2 (odd). -/
lemma bigM_id (i : ℕ) : cubeId specTable bigM (i, 0, 0) = if i % 2 = 0 then 1 else 2 := by
  rcases Nat.mod_two_eq_zero_or_one i with h | h
  · have hsucc : (i + 1) % 2 = 1 := by omega
    rw [cubeId, range_eight, if_pos h]
    norm_num [cornerVal, cornerPt, Matrix3D.get, bigM, specTable, CUTOFF, h, hsucc]
  · have hsucc : (i + 1) % 2 = 0 := by omega
    rw [cubeId, range_eight, if_neg (by omega : ¬ i % 2 = 0)]
    norm_num [cornerVal, cornerPt, Matrix3D.get, bigM, specTable, CUTOFF, h, hsucc]

/-- Helper: every `bigM` cube emits exactly 3 vertices. -/
lemma bigM_cube_len (i : ℕ) : (get_cube_tris specTable bigM (i, 0, 0)).length = 3 := by
  rw [get_cube_tris_length, bigM_id]
  rcases Nat.mod_two_eq_zero_or_one i with h | h
  · rw [if_pos h]
    decide
  · rw [if_neg (by omega : ¬ i % 2 = 0)]
    decide

/-- Helper: `bigM`'s cube origins are `(x, 0, 0)` for `x < 21847`. -/
lemma bigM_origins : cubeOrigins bigM = (List.range 21847).map fun x => (x, 0, 0) := by
  show ((List.range (2 - 1)).flatMap fun z => (List.range (2 - 1)).flatMap fun y =>
    (List.range (21848 - 1)).map fun x => (x, y, z)) = _
  rw [(show (2 : ℕ) - 1 = 1 from rfl), (show (21848 : ℕ) - 1 = 21847 from rfl),
    (show List.range 1 = [0] from rfl)]
  rw [List.flatMap_cons, List.flatMap_nil, List.flatMap_cons, List.flatMap_nil]
  simp only [List.append_nil]

/-- Helper: `bigM`'s mesh has 65541 vertices — more than fit in a `u16`. -/
lemma bigM_len : (get_mesh_data specTable bigM 1).posns.length = 65541 := by
  simp only [get_mesh_data, bigM_origins, List.length_flatMap, List.map_map]
  rw [List.map_congr_left (g := fun _ => 3) (by
    intro x hx
    simp only [Function.comp]
    rw [cubePts_length, bigM_cube_len])]
  rw [List.map_const', List.length_range, List.sum_replicate, smul_eq_mul]

/-- C6 counterexample.  On `bigM` the mesh has 65541 vertices; the
`as u16` cast truncates the index range to `0..(65541 % 65536) = 0..5`, so
the emitted index sequence is *not* `[0, 1, ..., length-1]`. -/
theorem mesh_indices_truncation_cx :
    ((get_mesh_data specTable bigM 1).get_mesh_data).1 ≠
      List.range ((get_mesh_data specTable bigM 1).posns.length) := by
  intro h
  have h1 : ((get_mesh_data specTable bigM 1).get_mesh_data).1 =
      List.range (65541 % 2 ^ 16) := by
    simp only [MeshData.get_mesh_data, bigM_len]
  rw [bigM_len, h1] at h
  have h2 := congrArg List.length h
  rw [List.length_range, List.length_range] at h2
  norm_num at h2

/-- A spline key of the `splines` crate: time, value, and the Bezier control
value carried by `Interpolation::Bezier(control)` (the only interpolation
kind terrain.rs uses). -/
structure Key where
  t : ℚ
  value : ℚ
  control : ℚ

/-- A spline, as built by `Spline::from_vec` (keys already sorted by time
for the concrete splines of terrain.rs). -/
structure Spline where
  keys : List Key

/-- The `splines` crate's cubic Bezier interpolation
`cubic_bezier(a, u, v, b, s)`. -/
def cubic_bezier (a u v b s : ℚ) : ℚ :=
  (1 - s) ^ 3 * a + 3 * (1 - s) ^ 2 * s * u + 3 * (1 - s) * s ^ 2 * v + s ^ 3 * b

/-- Interpolation between two consecutive Bezier keys, as the `splines`
crate does it: normalise the time into the key interval and mirror the next
key's control value. -/
def bezierSample (k k' : Key) (t : ℚ) : ℚ :=
  cubic_bezier k.value k.control (k'.value + k'.value - k'.control) k'.value
    ((t - k.t) / (k'.t - k.t))

/-- Scan for the pair of consecutive keys whose interval contains `t`. -/
def sampleAux : Key → List Key → ℚ → Option ℚ
  | _, [], _ => none
  | k, k' :: rest, t =>
    if k.t ≤ t ∧ t < k'.t then some (bezierSample k k' t) else sampleAux k' rest t

/-- `Spline::sample`: `none` outside `[first.t, last.t)`. -/
def Spline.sample (s : Spline) (t : ℚ) : Option ℚ :=
  match s.keys with
  | [] => none
  | k :: rest => sampleAux k rest t

/-- `Spline::clamped_sample`: fall back to the first key's value at or below
the first time, and to the last key's value at or above the last time;
`none` only for an empty spline (when `head?`/`getLast?` are `none`). -/
def Spline.clamped_sample (s : Spline) (t : ℚ) : Option ℚ :=
  match s.keys.head?, s.keys.getLast? with
  | some k, some kl =>
    match s.sample t with
    | some v => some v
    | none =>
      if t ≤ k.t then some k.value
      else if kl.t ≤ t then some kl.value else none
  | _, _ => none

/-- The `upper_bound` spline of terrain.rs lines 46-52: keys at heights
-140, -5, 0, 20, 50 with values -1, 0.5, 0.35, 0.8, 1, all
`Interpolation::Bezier(0.0)`. -/
def upperBoundSpline : Spline :=
  ⟨[⟨-140, -1, 0⟩, ⟨-5, 1 / 2, 0⟩, ⟨0, 7 / 20, 0⟩, ⟨20, 4 / 5, 0⟩, ⟨50, 1, 0⟩]⟩

/-- The `lower_bound` spline of terrain.rs lines 54-60: keys at heights
-140, -5, 0, 20, 50 with values -1, -0.5, -0.65, -0.2, 1. -/
def lowerBoundSpline : Spline :=
  ⟨[⟨-140, -1, 0⟩, ⟨-5, -(1 / 2), 0⟩, ⟨0, -(13 / 20), 0⟩, ⟨20, -(1 / 5), 0⟩, ⟨50, 1, 0⟩]⟩

/-- The `Terrain` struct (terrain.rs lines 11-19).  Each noise octave is a
function from a scaled world position to a raw value (the `noise` crate's
boxed `NoiseFn`). -/
structure Terrain where
  noise : List (ℚ × ℚ × ℚ → ℚ)
  noise_weights : List ℚ
  noise_scales : List ℚ
  upper_bound : Spline
  lower_bound : Spline
  points_per_chunk : ℕ
  scale : ℚ

/-- `Terrain::new` (terrain.rs lines 22-71).  The external crates appear as
parameters: `mkNoise n` models `OpenSimplex::new().set_seed(n)` and
`rngDraw s i` models the `i`-th `rng.gen()` draw of the `StdRng` seeded
with the 32-byte array `s`; the 32-byte array repeats the 16 big-endian
bytes of the `u128` master seed.  No argument validation is performed —
faithfully to the code, which rejects nothing. -/
def Terrain.new (mkNoise : ℕ → ℚ × ℚ × ℚ → ℚ) (rngDraw : (ℕ → ℕ) → ℕ → ℕ)
    (seed : ℕ) (points_per_chunk : ℕ) (scale : ℚ)
    (noise_weights noise_scales : List ℚ) : Terrain :=
  let bytes : ℕ → ℕ := fun i => seed / 256 ^ (15 - i) % 256
  let seed32 : ℕ → ℕ := fun i => bytes (i % 16)
  { noise := (List.range noise_weights.length).map fun i => mkNoise (rngDraw seed32 i)
    noise_weights := noise_weights
    noise_scales := noise_scales
    upper_bound := upperBoundSpline
    lower_bound := lowerBoundSpline
    points_per_chunk := points_per_chunk
    scale := scale }

/-- `Terrain::scaled_chunk` (terrain.rs lines 72-74). -/
def Terrain.scaled_chunk (t : Terrain) (val : ℤ) : ℚ :=
  ((val * t.points_per_chunk : ℤ) : ℚ) * t.scale

/-- `Terrain::true_chunk` (terrain.rs lines 76-78). -/
def Terrain.true_chunk (t : Terrain) (chunk : ℤ × ℤ × ℤ) : ℚ × ℚ × ℚ :=
  (t.scaled_chunk chunk.1, t.scaled_chunk chunk.2.1, t.scaled_chunk chunk.2.2)

/-- `Terrain::scaled_coord` (terrain.rs lines 80-82). -/
def Terrain.scaled_coord (t : Terrain) (chunk_val : ℚ) (coord_val : ℕ) : ℚ :=
  chunk_val + (coord_val : ℚ) * t.scale

/-- `Terrain::true_coord` (terrain.rs lines 84-90). -/
def Terrain.true_coord (t : Terrain) (tchunk : ℚ × ℚ × ℚ) (x y z : ℕ) : ℚ × ℚ × ℚ :=
  (t.scaled_coord tchunk.1 x, t.scaled_coord tchunk.2.1 y, t.scaled_coord tchunk.2.2 z)

/-- The weighted octave sum (terrain.rs lines 103-111): each noise function
is evaluated at the world position scaled by its octave's spatial scale and
weighted.  Rust indexes `noise_scales[i]`/`noise_weights[i]` and would panic
when they are shorter than `noise`; the `getD 0` default stands in for that
unreachable-for-valid-configurations case. -/
def octaveSum (t : Terrain) (p : ℚ × ℚ × ℚ) : ℚ :=
  (List.range t.noise.length).foldl
    (fun acc i =>
      acc + (t.noise.getD i fun _ => 0)
          (p.1 * t.noise_scales.getD i 0, p.2.1 * t.noise_scales.getD i 0,
           p.2.2 * t.noise_scales.getD i 0)
        * t.noise_weights.getD i 0)
    0

/-- The density remap of terrain.rs line 116:
`adjusted_val = (val - (-1.0)) * 0.5 * diff + lower_bound`. -/
def adjust (val lower upper : ℚ) : ℚ :=
  (val - (-1)) * (1 / 2) * (upper - lower) + lower

/-- The density stored for one sample (terrain.rs lines 102-117).  The
`unwrap` on `clamped_sample` is modelled by `getD 0`; it never fires on the
five-key bound splines (see `upper_clamped_isSome`/`lower_clamped_isSome`). -/
def sampleDensity (t : Terrain) (tchunk : ℚ × ℚ × ℚ) (x y z : ℕ) : ℚ :=
  let tc := t.true_coord tchunk x y z
  adjust (octaveSum t tc)
    ((t.lower_bound.clamped_sample tc.2.1).getD 0)
    ((t.upper_bound.clamped_sample tc.2.1).getD 0)

/-- The sample indices visited by `get_matrix`'s triple loop (terrain.rs
lines 99-101): `z` outermost, `x` innermost, each over `0..points`. -/
def volPoints (points : ℕ) : List (ℕ × ℕ × ℕ) :=
  (List.range points).flatMap fun z =>
    (List.range points).flatMap fun y =>
      (List.range points).map fun x => (x, y, z)

/-- Fill a volume by writing `f k` at every index `k` of `ks`, in order. -/
def writeAll (m : Matrix3D) (ks : List (ℕ × ℕ × ℕ)) (f : ℕ × ℕ × ℕ → ℚ) : Matrix3D :=
  ks.foldl (fun acc k => acc.set k (f k)) m

/-- `Terrain::get_matrix` (terrain.rs lines 92-122): allocate a
`(points_per_chunk+1)^3` volume and store `sampleDensity` at every index. -/
def Terrain.get_matrix (t : Terrain) (chunk : ℤ × ℤ × ℤ) : Matrix3D :=
  let points := t.points_per_chunk + 1
  writeAll (Matrix3D.new points points points) (volPoints points)
    (fun p => sampleDensity t (t.true_chunk chunk) p.1 p.2.1 p.2.2)

/-- `Terrain::get_chunk` (terrain.rs lines 124-129). -/
def Terrain.get_chunk (T : Triangulation) (t : Terrain) (chunk : ℤ × ℤ × ℤ) : MeshData :=
  get_mesh_data T (t.get_matrix chunk) t.scale

/-- `Terrain::chunk_size` (terrain.rs lines 131-133). -/
def Terrain.chunk_size (t : Terrain) : ℚ :=
  t.scale * (t.points_per_chunk : ℚ)

/-- Helper: `set` then `get`. -/
lemma Matrix3D.get_set (m : Matrix3D) (k q : ℕ × ℕ × ℕ) (val : ℚ) :
    (m.set k val).get q = if q = k then val else m.get q := rfl

/-- Helper: reading a filled volume returns the fill function at every
written index and the old content elsewhere. -/
lemma writeAll_get (m : Matrix3D) (ks : List (ℕ × ℕ × ℕ)) (f : ℕ × ℕ × ℕ → ℚ)
    (q : ℕ × ℕ × ℕ) :
    (writeAll m ks f).get q = if q ∈ ks then f q else m.get q := by
  induction ks generalizing m with
  | nil => simp [writeAll]
  | cons k ks ih =>
    show (writeAll (m.set k (f k)) ks f).get q = _
    rw [ih]
    by_cases h1 : q ∈ ks <;> by_cases h2 : q = k <;>
      simp [h1, h2, Matrix3D.get_set]

/-- Helper: filling writes only the data, never the dimensions. -/
lemma writeAll_dims (m : Matrix3D) (ks : List (ℕ × ℕ × ℕ)) (f : ℕ × ℕ × ℕ → ℚ) :
    (writeAll m ks f).xdim = m.xdim ∧ (writeAll m ks f).ydim = m.ydim ∧
    (writeAll m ks f).zdim = m.zdim := by
  induction ks generalizing m with
  | nil => exact ⟨rfl, rfl, rfl⟩
  | cons k ks ih =>
    show (writeAll (m.set k (f k)) ks f).xdim = _ ∧ _ ∧ _
    exact ih (m.set k (f k))

/-- Helper: two fills with pointwise-equal fill functions agree. -/
lemma writeAll_congr (m : Matrix3D) (ks : List (ℕ × ℕ × ℕ)) (f g : ℕ × ℕ × ℕ → ℚ)
    (h : ∀ k ∈ ks, f k = g k) :
    writeAll m ks f = writeAll m ks g := by
  induction ks generalizing m with
  | nil => rfl
  | cons k ks ih =>
    show writeAll (m.set k (f k)) ks f = writeAll (m.set k (g k)) ks g
    rw [h k (List.mem_cons_self k ks)]
    exact ih (m.set k (g k)) fun a ha => h a (List.mem_cons_of_mem _ ha)

/-- Helper: membership in the sample grid. -/
lemma mem_volPoints (points : ℕ) (p : ℕ × ℕ × ℕ) :
    p ∈ volPoints points ↔ p.1 < points ∧ p.2.1 < points ∧ p.2.2 < points := by
  obtain ⟨x, y, z⟩ := p
  simp only [volPoints, List.mem_flatMap, List.mem_map, List.mem_range]
  constructor
  · rintro ⟨z', hz', y', hy', x', hx', e⟩
    cases e
    exact ⟨hx', hy', hz'⟩
  · rintro ⟨h1, h2, h3⟩
    exact ⟨z, h3, y, h2, x, h1, rfl⟩

/-- Helper: the density stored at an in-range sample index is exactly
`sampleDensity` there. -/
lemma get_matrix_get (t : Terrain) (chunk : ℤ × ℤ × ℤ) (x y z : ℕ)
    (hx : x < t.points_per_chunk + 1) (hy : y < t.points_per_chunk + 1)
    (hz : z < t.points_per_chunk + 1) :
    (t.get_matrix chunk).get (x, y, z) = sampleDensity t (t.true_chunk chunk) x y z := by
  rw [Terrain.get_matrix, writeAll_get,
    if_pos ((mem_volPoints _ _).mpr ⟨hx, hy, hz⟩)]

/-- C3.  `Terrain::new` has no error path: constructing with *mismatched*
`noise_weights`/`noise_scales` lengths (2 vs 1) and a *non-positive* scale
(0) succeeds and returns a `Terrain` carrying exactly that degenerate
configuration — nothing is rejected, no configuration error exists in the
signature.  (A similar call with empty octave lists succeeds in the same
way.) -/
theorem terrain_new_accepts_invalid_config :
    (Terrain.new (fun _ _ => 0) (fun _ _ => 0) 0 16 0 [1, 2] [1]).noise_weights.length = 2 ∧
    (Terrain.new (fun _ _ => 0) (fun _ _ => 0) 0 16 0 [1, 2] [1]).noise_scales.length = 1 ∧
    (Terrain.new (fun _ _ => 0) (fun _ _ => 0) 0 16 0 [1, 2] [1]).scale = 0 ∧
    (Terrain.new (fun _ _ => 0) (fun _ _ => 0) 0 16 0 [1, 2] [1]).noise.length = 2 ∧
    (Terrain.new (fun _ _ => 0) (fun _ _ => 0) 0 16 0 [] []).noise = [] := by
  refine ⟨rfl, rfl, rfl, ?_, ?_⟩
  · simp [Terrain.new]
  · simp [Terrain.new]

/-- C7.  `get_chunk` is deterministic: the whole pipeline is a pure function
of the Terrain configuration (including the modelled noise/rng parameters)
and the triangulation table, so two identically-configured invocations at
the same chunk coordinate produce identical Mesh Data. -/
theorem get_chunk_deterministic (T : Triangulation) (mkN : ℕ → ℚ × ℚ × ℚ → ℚ)
    (rng : (ℕ → ℕ) → ℕ → ℕ) (seed ppc : ℕ) (scl : ℚ) (ws ss : List ℚ) (c : ℤ × ℤ × ℤ) :
    Terrain.get_chunk T (Terrain.new mkN rng seed ppc scl ws ss) c =
      Terrain.get_chunk T (Terrain.new mkN rng seed ppc scl ws ss) c := rfl

/-- C9.  Every stored density equals
`(raw + 1) * 0.5 * (upper - lower) + lower` with `raw` the weighted octave
sum and `upper`/`lower` the bound curves clamped-sampled at the sample's
world height; and the claim's arithmetic instance: raw 0 with bounds
±0.1 adjusts to exactly 0. -/
theorem stored_density_formula (t : Terrain) (chunk : ℤ × ℤ × ℤ) (x y z : ℕ)
    (hx : x < t.points_per_chunk + 1) (hy : y < t.points_per_chunk + 1)
    (hz : z < t.points_per_chunk + 1) :
    (t.get_matrix chunk).get (x, y, z) =
      adjust (octaveSum t (t.true_coord (t.true_chunk chunk) x y z))
        ((t.lower_bound.clamped_sample ((t.true_coord (t.true_chunk chunk) x y z).2.1)).getD 0)
        ((t.upper_bound.clamped_sample ((t.true_coord (t.true_chunk chunk) x y z).2.1)).getD 0) ∧
    adjust 0 (-(1 / 10)) (1 / 10) = 0 := by
  refine ⟨?_, by norm_num [adjust]⟩
  rw [get_matrix_get t chunk x y z hx hy hz]
  rfl

/-- C9 witness input: one octave of constant-zero noise, 2 samples per axis. -/
def tW9 : Terrain := Terrain.new (fun _ _ => 0) (fun _ _ => 0) 0 1 1 [1] [1]

/-- C9 witness: the density formula instantiated at a concrete terrain,
chunk and sample. -/
theorem stored_density_formula_witness :
    (tW9.get_matrix (0, 0, 0)).get (0, 0, 0) =
      adjust (octaveSum tW9 (tW9.true_coord (tW9.true_chunk (0, 0, 0)) 0 0 0))
        ((tW9.lower_bound.clamped_sample ((tW9.true_coord (tW9.true_chunk (0, 0, 0)) 0 0 0).2.1)).getD 0)
        ((tW9.upper_bound.clamped_sample ((tW9.true_coord (tW9.true_chunk (0, 0, 0)) 0 0 0).2.1)).getD 0) ∧
    adjust 0 (-(1 / 10)) (1 / 10) = 0 :=
  stored_density_formula tW9 (0, 0, 0) 0 0 0 (Nat.succ_pos _) (Nat.succ_pos _) (Nat.succ_pos _)

/-- Helper: first key of the upper bound spline. -/
lemma upper_head : upperBoundSpline.keys.head? = some ⟨-140, -1, 0⟩ := rfl

/-- Helper: last key of the upper bound spline. -/
lemma upper_last : upperBoundSpline.keys.getLast? = some ⟨50, 1, 0⟩ := rfl

/-- Helper: first key of the lower bound spline. -/
lemma lower_head : lowerBoundSpline.keys.head? = some ⟨-140, -1, 0⟩ := rfl

/-- Helper: last key of the lower bound spline. -/
lemma lower_last : lowerBoundSpline.keys.getLast? = some ⟨50, 1, 0⟩ := rfl

/-- Helper: at or below the floor height the upper bound clamps to -1. -/
lemma upper_clamped_low (q : ℚ) (h : q ≤ -140) :
    upperBoundSpline.clamped_sample q = some (-1) := by
  rcases eq_or_lt_of_le h with he | hlt
  · have hs : upperBoundSpline.sample q = some (-1) := by
      simp only [Spline.sample, upperBoundSpline, sampleAux]
      rw [if_pos ⟨le_of_eq he.symm, by rw [he]; norm_num⟩]
      rw [he]
      norm_num [bezierSample, cubic_bezier]
    simp only [Spline.clamped_sample, upper_head, upper_last, hs]
  · have hs : upperBoundSpline.sample q = none := by
      simp only [Spline.sample, upperBoundSpline, sampleAux]
      rw [if_neg (by rintro ⟨h1, -⟩; linarith), if_neg (by rintro ⟨h1, -⟩; linarith),
        if_neg (by rintro ⟨h1, -⟩; linarith), if_neg (by rintro ⟨h1, -⟩; linarith)]
    simp only [Spline.clamped_sample, upper_head, upper_last, hs]
    rw [if_pos h]

/-- Helper: at or below the floor height the lower bound clamps to -1. -/
lemma lower_clamped_low (q : ℚ) (h : q ≤ -140) :
    lowerBoundSpline.clamped_sample q = some (-1) := by
  rcases eq_or_lt_of_le h with he | hlt
  · have hs : lowerBoundSpline.sample q = some (-1) := by
      simp only [Spline.sample, lowerBoundSpline, sampleAux]
      rw [if_pos ⟨le_of_eq he.symm, by rw [he]; norm_num⟩]
      rw [he]
      norm_num [bezierSample, cubic_bezier]
    simp only [Spline.clamped_sample, lower_head, lower_last, hs]
  · have hs : lowerBoundSpline.sample q = none := by
      simp only [Spline.sample, lowerBoundSpline, sampleAux]
      rw [if_neg (by rintro ⟨h1, -⟩; linarith), if_neg (by rintro ⟨h1, -⟩; linarith),
        if_neg (by rintro ⟨h1, -⟩; linarith), if_neg (by rintro ⟨h1, -⟩; linarith)]
    simp only [Spline.clamped_sample, lower_head, lower_last, hs]
    rw [if_pos h]

/-- Helper: at or above the air height the upper bound clamps to 1. -/
lemma upper_clamped_high (q : ℚ) (h : 50 ≤ q) :
    upperBoundSpline.clamped_sample q = some 1 := by
  have hs : upperBoundSpline.sample q = none := by
    simp only [Spline.sample, upperBoundSpline, sampleAux]
    rw [if_neg (by rintro ⟨-, h2⟩; linarith), if_neg (by rintro ⟨-, h2⟩; linarith),
      if_neg (by rintro ⟨-, h2⟩; linarith), if_neg (by rintro ⟨-, h2⟩; linarith)]
  simp only [Spline.clamped_sample, upper_head, upper_last, hs]
  rw [if_neg (by intro h1; linarith), if_pos h]

/-- Helper: at or above the air height the lower bound clamps to 1. -/
lemma lower_clamped_high (q : ℚ) (h : 50 ≤ q) :
    lowerBoundSpline.clamped_sample q = some 1 := by
  have hs : lowerBoundSpline.sample q = none := by
    simp only [Spline.sample, lowerBoundSpline, sampleAux]
    rw [if_neg (by rintro ⟨-, h2⟩; linarith), if_neg (by rintro ⟨-, h2⟩; linarith),
      if_neg (by rintro ⟨-, h2⟩; linarith), if_neg (by rintro ⟨-, h2⟩; linarith)]
  simp only [Spline.clamped_sample, lower_head, lower_last, hs]
  rw [if_neg (by intro h1; linarith), if_pos h]

/-- Helper: in the interior the upper bound's plain sample succeeds. -/
lemma upper_sample_mid (q : ℚ) (hlo : -140 < q) (hhi : q < 50) :
    ∃ v, upperBoundSpline.sample q = some v := by
  simp only [Spline.sample, upperBoundSpline, sampleAux]
  rcases le_or_lt (-140) q with h0 | h0
  swap
  · exact absurd h0 (not_lt.mpr (le_of_lt hlo))
  rcases lt_or_le q (-5) with h1 | h1
  · rw [if_pos ⟨h0, h1⟩]; exact ⟨_, rfl⟩
  rw [if_neg (by rintro ⟨-, h2⟩; linarith)]
  rcases lt_or_le q 0 with h2 | h2
  · rw [if_pos ⟨h1, h2⟩]; exact ⟨_, rfl⟩
  rw [if_neg (by rintro ⟨-, h3⟩; linarith)]
  rcases lt_or_le q 20 with h3 | h3
  · rw [if_pos ⟨h2, h3⟩]; exact ⟨_, rfl⟩
  rw [if_neg (by rintro ⟨-, h4⟩; linarith)]
  rw [if_pos ⟨h3, hhi⟩]
  exact ⟨_, rfl⟩

/-- Helper: in the interior the lower bound's plain sample succeeds. -/
lemma lower_sample_mid (q : ℚ) (hlo : -140 < q) (hhi : q < 50) :
    ∃ v, lowerBoundSpline.sample q = some v := by
  simp only [Spline.sample, lowerBoundSpline, sampleAux]
  rcases le_or_lt (-140) q with h0 | h0
  swap
  · exact absurd h0 (not_lt.mpr (le_of_lt hlo))
  rcases lt_or_le q (-5) with h1 | h1
  · rw [if_pos ⟨h0, h1⟩]; exact ⟨_, rfl⟩
  rw [if_neg (by rintro ⟨-, h2⟩; linarith)]
  rcases lt_or_le q 0 with h2 | h2
  · rw [if_pos ⟨h1, h2⟩]; exact ⟨_, rfl⟩
  rw [if_neg (by rintro ⟨-, h3⟩; linarith)]
  rcases lt_or_le q 20 with h3 | h3
  · rw [if_pos ⟨h2, h3⟩]; exact ⟨_, rfl⟩
  rw [if_neg (by rintro ⟨-, h4⟩; linarith)]
  rw [if_pos ⟨h3, hhi⟩]
  exact ⟨_, rfl⟩

/-- Helper: the clamped sample of the upper bound never fails. -/
lemma upper_clamped_isSome (q : ℚ) : (upperBoundSpline.clamped_sample q).isSome = true := by
  rcases le_or_lt q (-140) with h | h
  · rw [upper_clamped_low q h]; rfl
  rcases le_or_lt 50 q with h50 | h50
  · rw [upper_clamped_high q h50]; rfl
  obtain ⟨v, hv⟩ := upper_sample_mid q h h50
  simp only [Spline.clamped_sample, upper_head, upper_last, hv, Option.isSome_some]

/-- Helper: the clamped sample of the lower bound never fails. -/
lemma lower_clamped_isSome (q : ℚ) : (lowerBoundSpline.clamped_sample q).isSome = true := by
  rcases le_or_lt q (-140) with h | h
  · rw [lower_clamped_low q h]; rfl
  rcases le_or_lt 50 q with h50 | h50
  · rw [lower_clamped_high q h50]; rfl
  obtain ⟨v, hv⟩ := lower_sample_mid q h h50
  simp only [Spline.clamped_sample, lower_head, lower_last, hv, Option.isSome_some]

/-- C10.  For any terrain built by `Terrain::new` (whose bound curves are
the fixed five-key splines): a sample whose world height is at or below the
floor key (-140) stores density exactly -1 whatever the noise octaves
output, a sample at or above the air key (50) stores exactly 1, and the
clamped spline sampling is total (never `none`), so the `unwrap` in
`get_matrix` never panics. -/
theorem density_clamped_at_extremes (t : Terrain) (chunk : ℤ × ℤ × ℤ) (x y z : ℕ)
    (hub : t.upper_bound = upperBoundSpline) (hlb : t.lower_bound = lowerBoundSpline)
    (hx : x < t.points_per_chunk + 1) (hy : y < t.points_per_chunk + 1)
    (hz : z < t.points_per_chunk + 1) :
    ((t.true_coord (t.true_chunk chunk) x y z).2.1 ≤ -140 →
      (t.get_matrix chunk).get (x, y, z) = -1) ∧
    (50 ≤ (t.true_coord (t.true_chunk chunk) x y z).2.1 →
      (t.get_matrix chunk).get (x, y, z) = 1) ∧
    (t.upper_bound.clamped_sample ((t.true_coord (t.true_chunk chunk) x y z).2.1)).isSome = true ∧
    (t.lower_bound.clamped_sample ((t.true_coord (t.true_chunk chunk) x y z).2.1)).isSome = true := by
  refine ⟨?_, ?_, ?_, ?_⟩
  · intro h
    rw [get_matrix_get t chunk x y z hx hy hz]
    simp only [sampleDensity, hub, hlb, upper_clamped_low _ h, lower_clamped_low _ h,
      Option.getD_some, adjust]
    ring
  · intro h
    rw [get_matrix_get t chunk x y z hx hy hz]
    simp only [sampleDensity, hub, hlb, upper_clamped_high _ h, lower_clamped_high _ h,
      Option.getD_some, adjust]
    ring
  · rw [hub]; exact upper_clamped_isSome _
  · rw [hlb]; exact lower_clamped_isSome _

/-- C10 witness input: one octave of constant noise 3, chunk height -140. -/
def tW10 : Terrain := Terrain.new (fun _ _ => 3) (fun _ _ => 0) 0 1 1 [1] [1]

/-- C10 witness: the clamping behaviour instantiated at a concrete terrain,
chunk `(0, -140, 0)` and sample `(0,0,0)` (world height -140). -/
theorem density_clamped_at_extremes_witness :
    ((tW10.true_coord (tW10.true_chunk (0, -140, 0)) 0 0 0).2.1 ≤ -140 →
      (tW10.get_matrix (0, -140, 0)).get (0, 0, 0) = -1) ∧
    (50 ≤ (tW10.true_coord (tW10.true_chunk (0, -140, 0)) 0 0 0).2.1 →
      (tW10.get_matrix (0, -140, 0)).get (0, 0, 0) = 1) ∧
    (tW10.upper_bound.clamped_sample
      ((tW10.true_coord (tW10.true_chunk (0, -140, 0)) 0 0 0).2.1)).isSome = true ∧
    (tW10.lower_bound.clamped_sample
      ((tW10.true_coord (tW10.true_chunk (0, -140, 0)) 0 0 0).2.1)).isSome = true :=
  density_clamped_at_extremes tW10 (0, -140, 0) 0 0 0 rfl rfl
    (Nat.succ_pos _) (Nat.succ_pos _) (Nat.succ_pos _)

/-- A noise field that is `-1` exactly at the sample points with world
coordinates `x ∈ {0, 16, 32}, y = 0, z = 0` and `1` elsewhere.  It is
16-periodic on the sampled grid, so chunks `(0,0,0)` and `(1,0,0)` see
identical density volumes. -/
def gNoise : ℚ × ℚ × ℚ → ℚ := fun p =>
  if (p.1 = 0 ∨ p.1 = 16 ∨ p.1 = 32) ∧ p.2.1 = 0 ∧ p.2.2 = 0 then -1 else 1

/-- The C4 terrain: `points_per_chunk = 16`, `scale = 1.0`, one octave of
`gNoise` with weight 1 and spatial scale 1. -/
def tC4 : Terrain := Terrain.new (fun _ => gNoise) (fun _ _ => 0) 0 16 1 [1] [1]

/-- Helper projections of `tC4`. -/
lemma tC4_scale : tC4.scale = 1 := rfl

/-- Helper: `tC4` generates 16 points per chunk. -/
lemma tC4_ppc : tC4.points_per_chunk = 16 := rfl

/-- Helper: `tC4`'s single octave is `gNoise`. -/
lemma tC4_noise : tC4.noise = [gNoise] := by
  simp [tC4, Terrain.new]

/-- Helper: the octave sum of `tC4` is just `gNoise`. -/
lemma octaveSum_tC4 (p : ℚ × ℚ × ℚ) : octaveSum tC4 p = gNoise p := by
  rw [octaveSum, tC4_noise, (show [gNoise].length = 1 from rfl),
    (show List.range 1 = [0] from rfl), List.foldl_cons, List.foldl_nil,
    (show tC4.noise_weights = [1] from rfl), (show tC4.noise_scales = [1] from rfl)]
  simp only [List.getD, List.get?, Option.getD_some, mul_one, zero_add]

/-- Helper: upper bound curve at height 0 (start of the surface-hills
Bezier segment). -/
lemma upper_at_zero : upperBoundSpline.clamped_sample 0 = some (7 / 20) := by
  have hs : upperBoundSpline.sample 0 = some (7 / 20) := by
    simp only [Spline.sample, upperBoundSpline, sampleAux]
    rw [if_neg (by norm_num), if_neg (by norm_num), if_pos (by norm_num)]
    norm_num [bezierSample, cubic_bezier]
  simp only [Spline.clamped_sample, upper_head, upper_last, hs]

/-- Helper: lower bound curve at height 0. -/
lemma lower_at_zero : lowerBoundSpline.clamped_sample 0 = some (-(13 / 20)) := by
  have hs : lowerBoundSpline.sample 0 = some (-(13 / 20)) := by
    simp only [Spline.sample, lowerBoundSpline, sampleAux]
    rw [if_neg (by norm_num), if_neg (by norm_num), if_pos (by norm_num)]
    norm_num [bezierSample, cubic_bezier]
  simp only [Spline.clamped_sample, lower_head, lower_last, hs]

/-- Helper: upper bound curve at height 1 (Bezier, normalised time 1/20). -/
lemma upper_at_one : upperBoundSpline.clamped_sample 1 = some (49853 / 160000) := by
  have hs : upperBoundSpline.sample 1 = some (49853 / 160000) := by
    simp only [Spline.sample, upperBoundSpline, sampleAux]
    rw [if_neg (by norm_num), if_neg (by norm_num), if_pos (by norm_num)]
    norm_num [bezierSample, cubic_bezier]
  simp only [Spline.clamped_sample, upper_head, upper_last, hs]

/-- Helper: lower bound curve at height 1. -/
lemma lower_at_one : lowerBoundSpline.clamped_sample 1 = some (-(89627 / 160000)) := by
  have hs : lowerBoundSpline.sample 1 = some (-(89627 / 160000)) := by
    simp only [Spline.sample, lowerBoundSpline, sampleAux]
    rw [if_neg (by norm_num), if_neg (by norm_num), if_pos (by norm_num)]
    norm_num [bezierSample, cubic_bezier]
  simp only [Spline.clamped_sample, lower_head, lower_last, hs]

/-- Helper: the density `tC4` stores at sample `(x,y,z)` of chunk `(0,0,0)`. -/
lemma tC4_density0 (x y z : ℕ) :
    sampleDensity tC4 (tC4.true_chunk (0, 0, 0)) x y z =
      adjust (gNoise ((x : ℚ), (y : ℚ), (z : ℚ)))
        ((lowerBoundSpline.clamped_sample (y : ℚ)).getD 0)
        ((upperBoundSpline.clamped_sample (y : ℚ)).getD 0) := by
  simp only [sampleDensity]
  rw [octaveSum_tC4]
  norm_num [Terrain.true_coord, Terrain.true_chunk, Terrain.scaled_coord,
    Terrain.scaled_chunk, tC4_scale, tC4_ppc,
    (show tC4.lower_bound = lowerBoundSpline from rfl),
    (show tC4.upper_bound = upperBoundSpline from rfl)]

/-- Helper: the density `tC4` stores at sample `(x,y,z)` of chunk `(1,0,0)`:
same as chunk `(0,0,0)` except the noise is probed 16 further along x. -/
lemma tC4_density1 (x y z : ℕ) :
    sampleDensity tC4 (tC4.true_chunk (1, 0, 0)) x y z =
      adjust (gNoise (16 + (x : ℚ), (y : ℚ), (z : ℚ)))
        ((lowerBoundSpline.clamped_sample (y : ℚ)).getD 0)
        ((upperBoundSpline.clamped_sample (y : ℚ)).getD 0) := by
  simp only [sampleDensity]
  rw [octaveSum_tC4]
  norm_num [Terrain.true_coord, Terrain.true_chunk, Terrain.scaled_coord,
    Terrain.scaled_chunk, tC4_scale, tC4_ppc,
    (show tC4.lower_bound = lowerBoundSpline from rfl),
    (show tC4.upper_bound = upperBoundSpline from rfl)]

/-- Helper: `gNoise` is 16-periodic on the sampled x-range. -/
lemma gNoise_period (x : ℕ) (y z : ℕ) (hx : x < 17) :
    gNoise (16 + (x : ℚ), (y : ℚ), (z : ℚ)) = gNoise ((x : ℚ), (y : ℚ), (z : ℚ)) := by
  interval_cases x <;> norm_num [gNoise]

/-- Helper: chunks `(1,0,0)` and `(0,0,0)` of `tC4` produce identical
density volumes. -/
lemma tC4_matrix_eq : tC4.get_matrix (1, 0, 0) = tC4.get_matrix (0, 0, 0) := by
  simp only [Terrain.get_matrix]
  apply writeAll_congr
  intro p hp
  rw [mem_volPoints] at hp
  obtain ⟨x, y, z⟩ := p
  obtain ⟨hx, -, -⟩ := hp
  rw [tC4_ppc] at hx
  show sampleDensity tC4 (tC4.true_chunk (1, 0, 0)) x y z =
    sampleDensity tC4 (tC4.true_chunk (0, 0, 0)) x y z
  rw [tC4_density1, tC4_density0, gNoise_period x y z (by omega)]

/-- Helper: the densities of `tC4`'s chunk-(0,0,0) volume in closed form. -/
lemma MC4_get (x y z : ℕ) (hx : x < 17) (hy : y < 17) (hz : z < 17) :
    (tC4.get_matrix (0, 0, 0)).get (x, y, z) =
      adjust (gNoise ((x : ℚ), (y : ℚ), (z : ℚ)))
        ((lowerBoundSpline.clamped_sample (y : ℚ)).getD 0)
        ((upperBoundSpline.clamped_sample (y : ℚ)).getD 0) := by
  rw [get_matrix_get tC4 (0, 0, 0) x y z (by rw [tC4_ppc]; omega) (by rw [tC4_ppc]; omega)
    (by rw [tC4_ppc]; omega), tC4_density0]

/-- Helper: only corner 0 of cube `(0,0,0)` is below the cutoff: id 1. -/
lemma MC4_id : cubeId specTable (tC4.get_matrix (0, 0, 0)) (0, 0, 0) = 1 := by
  rw [cubeId, range_eight]
  norm_num [cornerVal, cornerPt, specTable, CUTOFF, List.getD,
    MC4_get 0 0 0 (by norm_num) (by norm_num) (by norm_num),
    MC4_get 1 0 0 (by norm_num) (by norm_num) (by norm_num),
    MC4_get 1 1 0 (by norm_num) (by norm_num) (by norm_num),
    MC4_get 0 1 0 (by norm_num) (by norm_num) (by norm_num),
    MC4_get 0 0 1 (by norm_num) (by norm_num) (by norm_num),
    MC4_get 1 0 1 (by norm_num) (by norm_num) (by norm_num),
    MC4_get 1 1 1 (by norm_num) (by norm_num) (by norm_num),
    MC4_get 0 1 1 (by norm_num) (by norm_num) (by norm_num),
    gNoise, adjust, lower_at_zero, upper_at_zero, lower_at_one, upper_at_one,
    Option.getD_some, -Prod.mk_zero_zero, -Prod.mk_one_one]

/-- Helper: cube `(0,0,0)` of `tC4`'s volume emits the three corner-0 edges. -/
lemma MC4_tris : get_cube_tris specTable (tC4.get_matrix (0, 0, 0)) (0, 0, 0) =
    [edgePoint specTable (tC4.get_matrix (0, 0, 0)) (0, 0, 0) 0,
     edgePoint specTable (tC4.get_matrix (0, 0, 0)) (0, 0, 0) 8,
     edgePoint specTable (tC4.get_matrix (0, 0, 0)) (0, 0, 0) 3] := by
  rw [get_cube_tris, MC4_id]
  norm_num [rowOf, specTable, specRow, List.getD]
  rfl

/-- Helper: the first emitted crossing point of `tC4`'s first cube. -/
lemma MC4_p0 : edgePoint specTable (tC4.get_matrix (0, 0, 0)) (0, 0, 0) 0 =
    (13 / 20, 0, 0) := by
  norm_num [edgePoint, edgeWeights, cornerVal, cornerPt, specTable, CUTOFF, List.getD,
    MC4_get 0 0 0 (by norm_num) (by norm_num) (by norm_num),
    MC4_get 1 0 0 (by norm_num) (by norm_num) (by norm_num),
    gNoise, adjust, lower_at_zero, upper_at_zero, Option.getD_some,
    -Prod.mk_zero_zero, -Prod.mk_one_one]

/-- Helper: the first element of a flat-mapped list. -/
lemma flatMap_get_zero {α β : Type} (f : α → List β) (l : List α) (a : α) (b : β)
    (t : List β) (hl : l.head? = some a) (hf : f a = b :: t) :
    (l.flatMap f).get? 0 = some b := by
  cases l with
  | nil => simp at hl
  | cons x xs =>
    simp only [List.head?_cons, Option.some.injEq] at hl
    subst hl
    rw [List.flatMap_cons, hf]
    rfl

/-- Helper: the dimensions of `tC4`'s volume. -/
lemma MC4_dims : (tC4.get_matrix (0, 0, 0)).xdim = 17 ∧
    (tC4.get_matrix (0, 0, 0)).ydim = 17 ∧ (tC4.get_matrix (0, 0, 0)).zdim = 17 := by
  simp only [Terrain.get_matrix]
  exact ⟨(writeAll_dims _ _ _).1.trans rfl, (writeAll_dims _ _ _).2.1.trans rfl,
    (writeAll_dims _ _ _).2.2.trans rfl⟩

/-- Helper: the first cube origin visited on `tC4`'s volume is `(0,0,0)`. -/
lemma MC4_origins_head : (cubeOrigins (tC4.get_matrix (0, 0, 0))).head? = some (0, 0, 0) := by
  obtain ⟨hx, hy, hz⟩ := MC4_dims
  simp only [cubeOrigins, hx, hy, hz]
  rfl

/-- Helper: the first vertex of `tC4`'s chunk `(0,0,0)` is `(13/20, 0, 0)`. -/
lemma MC4_first_vertex :
    (Terrain.get_chunk specTable tC4 (0, 0, 0)).posns.get? 0 = some (13 / 20, 0, 0) := by
  have hf : cubePts specTable (tC4.get_matrix (0, 0, 0)) tC4.scale (0, 0, 0) =
      (13 / 20, 0, 0) ::
        correct [edgePoint specTable (tC4.get_matrix (0, 0, 0)) (0, 0, 0) 8,
          edgePoint specTable (tC4.get_matrix (0, 0, 0)) (0, 0, 0) 3] tC4.scale (0, 0, 0) := by
    rw [cubePts, MC4_tris]
    simp only [correct, List.map_cons, List.map_nil, MC4_p0, tC4_scale]
    norm_num
  simp only [Terrain.get_chunk, get_mesh_data]
  exact flatMap_get_zero _ _ (0, 0, 0) (13 / 20, 0, 0) _ MC4_origins_head hf

/-- C4 counterexample.  `tC4` has `points_per_chunk = 16`, `scale = 1`, and
its chunks `(1,0,0)` and `(0,0,0)` are generated from identical density
volumes; yet the vertex lists of the two chunks are *identical* (the chunk
coordinate never enters `get_mesh_data`; output is chunk-local), so the
first vertex is `(13/20, 0, 0)` in both and is *not* offset by `+16.0` on
the x-axis. -/
theorem get_chunk_no_offset_cx :
    tC4.points_per_chunk = 16 ∧ tC4.scale = 1 ∧
    tC4.get_matrix (1, 0, 0) = tC4.get_matrix (0, 0, 0) ∧
    ¬ (∀ (i : ℕ) (p0 p1 : ℚ × ℚ × ℚ),
        (Terrain.get_chunk specTable tC4 (0, 0, 0)).posns.get? i = some p0 →
        (Terrain.get_chunk specTable tC4 (1, 0, 0)).posns.get? i = some p1 →
        p1 = (p0.1 + 16, p0.2.1, p0.2.2)) := by
  refine ⟨rfl, rfl, tC4_matrix_eq, ?_⟩
  intro h
  have he : Terrain.get_chunk specTable tC4 (1, 0, 0) =
      Terrain.get_chunk specTable tC4 (0, 0, 0) := by
    simp only [Terrain.get_chunk]
    rw [tC4_matrix_eq]
  have h1 : (Terrain.get_chunk specTable tC4 (1, 0, 0)).posns.get? 0 =
      some (13 / 20, 0, 0) := by
    rw [he]
    exact MC4_first_vertex
  have hc := h 0 _ _ MC4_first_vertex h1
  have hx := congrArg Prod.fst hc
  norm_num at hx

/-- C4 (amended).  When the two chunks' density volumes are identical, the
Mesh Data of chunk `(1,0,0)` is bit-identical to that of chunk `(0,0,0)`
(offset `+0.0`): `get_chunk` emits chunk-local coordinates, and the
`+16·scale` world offset is applied by the caller placing the chunk (via
`chunk_size`), not by `get_chunk`. -/
theorem get_chunk_chunk_local (T : Triangulation) (t : Terrain)
    (h : t.get_matrix (1, 0, 0) = t.get_matrix (0, 0, 0)) :
    Terrain.get_chunk T t (1, 0, 0) = Terrain.get_chunk T t (0, 0, 0) := by
  simp only [Terrain.get_chunk]
  rw [h]

/-- C4 witness: the amended claim instantiated on `tC4`. -/
theorem get_chunk_chunk_local_witness :
    Terrain.get_chunk specTable tC4 (1, 0, 0) = Terrain.get_chunk specTable tC4 (0, 0, 0) :=
  get_chunk_chunk_local specTable tC4 tC4_matrix_eq

end Kyro
